import Mathlib

set_option maxHeartbeats 1000000
set_option linter.unusedVariables false

/-!
Verification of the probability-distribution layer in
stable_baselines3/common/distributions.py.

Tensors are modelled as rational-valued nested lists: a 2-D tensor of
shape (batch, n) becomes a `List (List Rat)`.  Operations of the torch
library that have exact rational meaning (min, comparison, masking,
matrix multiplication, argmax, summation) are embedded directly;
transcendental operations (exp, log, tanh, sampling) are either modelled
over the reals (for the numeric claims) or abstracted as an explicit
`Torch` collaborator record (for the structural claims, where their
values never matter).  A raised Python exception is modelled as an
`Except.error`.
-/

/-- A 2-D tensor of rationals, shape (batch, n). -/
abbrev Mat2 := List (List ℚ)

/-- The exceptions the Python module can raise.  `precondition` stands for
the errors produced by operating on an unbound distribution (attribute
access on `None`) and for failed asserts; `configuration` for a missing
masking collaborator; `ctorRaise` for the unconditional
`raise Exception` in `CategoricalDistribution.__init__`; `valueError`
for numpy broadcast failures; `notImplemented` for unsupported action
spaces. -/
inductive Err
  | precondition
  | configuration
  | ctorRaise
  | valueError
  | notImplemented
  deriving DecidableEq, Repr

/-- `tensor.min()` over all entries, as used in
`CategoricalDistributionLimitedActions.proba_distribution`.  torch
raises on an empty tensor; the empty case (default 0) is never reached
by any claim. -/
def globalMin (logits : Mat2) : ℚ :=
  match logits.flatten with
  | [] => 0
  | x :: xs => xs.foldl (fun a b => if a ≤ b then a else b) x

/-- Decidable equality of `Except` results, so that concrete method
outcomes can be checked by evaluation. -/
instance {ε α : Type} [DecidableEq ε] [DecidableEq α] : DecidableEq (Except ε α) :=
  fun x y =>
    match x, y with
    | .ok a, .ok b =>
        if h : a = b then isTrue (by rw [h])
        else isFalse (fun hh => by cases hh; exact h rfl)
    | .error a, .error b =>
        if h : a = b then isTrue (by rw [h])
        else isFalse (fun hh => by cases hh; exact h rfl)
    | .ok _, .error _ => isFalse (fun hh => by cases hh)
    | .error _, .ok _ => isFalse (fun hh => by cases hh)

/-- The elementary `torch.distributions.Categorical`, identified by the
logits it was built from. -/
structure CategoricalQ where
  logits : Mat2
  deriving DecidableEq, Repr

/-- The elementary `torch.distributions.Normal`, identified by its
parameters. -/
structure NormalT where
  mean : Mat2
  std : Mat2
  deriving DecidableEq, Repr

/-- Abstract record of the elementary torch collaborator operations that
have no exact rational meaning (densities, entropies, random draws,
tanh).  The structural claims hold for every interpretation of these
operations, so they are quantified over. -/
structure Torch where
  normalLogProb : NormalT → Mat2 → Mat2
  normalEntropy : NormalT → Mat2
  normalRSample : NormalT → Mat2
  tanhM : Mat2 → Mat2
  tanhInvM : Mat2 → Mat2
  logProbCorrM : Mat2 → Mat2
  logM : Mat2 → Mat2
  expV : List ℚ → List ℚ
  catSample : CategoricalQ → List ℕ
  catLogProb : CategoricalQ → List ℕ → List ℚ
  catEntropy : CategoricalQ → List ℚ
  bernSample : Mat2 → Mat2
  bernLogProb : Mat2 → Mat2 → Mat2
  bernEntropy : Mat2 → Mat2
  bernProbs : Mat2 → Mat2

/-- First index of the maximal entry of a row, scanning left to right:
`th.argmax` on the probabilities of a categorical.  Since softmax is
strictly monotone, the argmax of the probabilities equals the argmax of
the logits, so `mode` is computed on the logits directly. -/
def argmaxFrom : List ℚ → ℕ → ℕ → ℚ → ℕ
  | [], _, besti, _ => besti
  | x :: xs, i, besti, bestv =>
    if bestv < x then argmaxFrom xs (i + 1) i x else argmaxFrom xs (i + 1) besti bestv

/-- Row argmax (lowest index wins ties), the model of
`th.argmax(probs, dim=1)` for one row. -/
def argmaxIdx : List ℚ → ℕ
  | [] => 0
  | x :: xs => argmaxFrom xs 1 0 x

/- ------------------------------------------------------------------
CategoricalDistributionLimitedActions (the masked categorical that the
factory can return).
------------------------------------------------------------------ -/

/-- The value written over the logits of invalid actions, from
`proba_distribution`: `action_logits.min() - 10.0`, floored at `-10.0`
(the code sets it to `-10.0` whenever the computed value is `>= -10.0`). -/
def invalidLogitValue (action_logits : Mat2) : ℚ :=
  let v := globalMin action_logits - 10
  if -10 ≤ v then -10 else v

/-- `invalid_actions = invalid_actions_float > 0.0`: a position is
flagged invalid exactly when the masking layer output there is strictly
positive. -/
def invalidMask (invalid_actions_float : Mat2) : List (List Bool) :=
  invalid_actions_float.map (fun row => row.map (fun x => decide (0 < x)))

/-- `new_action_logits[invalid_actions] = invalid_logit_value`: overwrite
the flagged positions, keep the rest. -/
def maskLogits (action_logits : Mat2) (invalid : List (List Bool)) (v : ℚ) : Mat2 :=
  List.zipWith
    (fun row mrow => List.zipWith (fun x b => if b then v else x) row mrow)
    action_logits invalid

/-- State of a `CategoricalDistributionLimitedActions` instance.  The
fields mirror the Python attributes; an attribute that is still `None`
(or unset) is an empty `Option`.  `get_invalid_actions_layer` is the
caller-supplied masking collaborator applied to an observation batch. -/
structure CategoricalDistributionLimitedActions (Obs : Type) where
  action_dim : ℕ
  get_invalid_actions_layer : Obs → Mat2
  distribution : Option CategoricalQ := none
  original_action_logits : Option Mat2 := none
  invalid_actions : Option (List (List Bool)) := none
  invalid_logit_value : Option ℚ := none
  new_action_logits : Option Mat2 := none

namespace CategoricalDistributionLimitedActions

/-- The constructor: raises when the masking collaborator is absent. -/
def init {Obs : Type} (action_dim : ℕ) (layer : Option (Obs → Mat2)) :
    Except Err (CategoricalDistributionLimitedActions Obs) :=
  match layer with
  | none => .error .configuration
  | some f => .ok { action_dim := action_dim, get_invalid_actions_layer := f }

/-- `proba_distribution(action_logits, obs)`: run the masking layer,
flag the strictly positive outputs as invalid, overwrite their logits
with the floored invalid value and build the one categorical used by
every later query.  The permanently disabled `if False:` debug blocks of
the source are omitted. -/
def proba_distribution {Obs : Type}
    (st : CategoricalDistributionLimitedActions Obs)
    (action_logits : Mat2) (obs : Obs) :
    CategoricalDistributionLimitedActions Obs :=
  let invalid_actions_float := st.get_invalid_actions_layer obs
  let invalid := invalidMask invalid_actions_float
  let v := invalidLogitValue action_logits
  let new_logits := maskLogits action_logits invalid v
  { st with
    original_action_logits := some action_logits
    invalid_actions := some invalid
    invalid_logit_value := some v
    new_action_logits := some new_logits
    distribution := some ⟨new_logits⟩ }

/-- `sample()` draws from `self.distribution` (the masked categorical). -/
def sample {Obs : Type} (o : Torch) (st : CategoricalDistributionLimitedActions Obs) :
    Except Err (List ℕ) :=
  match st.distribution with
  | none => .error .precondition
  | some d => .ok (o.catSample d)

/-- `log_prob(actions)` evaluates `self.distribution` (the masked
categorical). -/
def log_prob {Obs : Type} (o : Torch) (st : CategoricalDistributionLimitedActions Obs)
    (actions : List ℕ) : Except Err (List ℚ) :=
  match st.distribution with
  | none => .error .precondition
  | some d => .ok (o.catLogProb d actions)

/-- `entropy()` of the masked categorical. -/
def entropy {Obs : Type} (o : Torch) (st : CategoricalDistributionLimitedActions Obs) :
    Except Err (Option (List ℚ)) :=
  match st.distribution with
  | none => .error .precondition
  | some d => .ok (some (o.catEntropy d))

/-- `mode()`: per-row argmax of the masked categorical probabilities. -/
def mode {Obs : Type} (st : CategoricalDistributionLimitedActions Obs) :
    Except Err (List ℕ) :=
  match st.distribution with
  | none => .error .precondition
  | some d => .ok (d.logits.map argmaxIdx)

end CategoricalDistributionLimitedActions

/- ------------------------------------------------------------------
CategoricalDistributionLimitedActions_Manual (the near-duplicate masked
categorical; not reachable from the factory).  `log_prob` and `entropy`
read `self.distribution`, built from the RAW logits, while `sample` and
`mode` read `self.sample_distribution`, built from the masked logits
with margin 100.
------------------------------------------------------------------ -/

/-- State of a `CategoricalDistributionLimitedActions_Manual` instance.
`sample_distribution` is unset until the first bind. -/
structure CategoricalDistributionLimitedActionsManual (Obs : Type) where
  action_dim : ℕ
  get_valid_actions : Obs → List ℚ
  distribution : Option CategoricalQ := none
  sample_distribution : Option CategoricalQ := none

namespace CategoricalDistributionLimitedActionsManual

/-- The bind of the manual variant: `self.distribution` keeps the raw
logits, `self.sample_distribution` gets the masked logits (margin 100,
positions with a zero validity indicator overwritten). -/
def proba_distribution {Obs : Type}
    (st : CategoricalDistributionLimitedActionsManual Obs)
    (action_logits : Mat2) (obs : List Obs) :
    CategoricalDistributionLimitedActionsManual Obs :=
  let v :=
    let w := globalMin action_logits - 100
    if -100 ≤ w then -100 else w
  let all_valid_actions := obs.map st.get_valid_actions
  let new_logits :=
    List.zipWith
      (fun row vrow => List.zipWith (fun x c => if c = 0 then v else x) row vrow)
      action_logits all_valid_actions
  { st with
    distribution := some ⟨action_logits⟩
    sample_distribution := some ⟨new_logits⟩ }

/-- `log_prob` of the manual variant reads `self.distribution` (raw
logits). -/
def log_prob {Obs : Type} (o : Torch)
    (st : CategoricalDistributionLimitedActionsManual Obs) (actions : List ℕ) :
    Except Err (List ℚ) :=
  match st.distribution with
  | none => .error .precondition
  | some d => .ok (o.catLogProb d actions)

/-- `entropy` of the manual variant reads `self.distribution`. -/
def entropy {Obs : Type} (o : Torch)
    (st : CategoricalDistributionLimitedActionsManual Obs) :
    Except Err (Option (List ℚ)) :=
  match st.distribution with
  | none => .error .precondition
  | some d => .ok (some (o.catEntropy d))

/-- `sample` of the manual variant reads `self.sample_distribution`
(masked logits). -/
def sample {Obs : Type} (o : Torch)
    (st : CategoricalDistributionLimitedActionsManual Obs) :
    Except Err (List ℕ) :=
  match st.sample_distribution with
  | none => .error .precondition
  | some d => .ok (o.catSample d)

/-- `mode` of the manual variant reads `self.sample_distribution`. -/
def mode {Obs : Type} (st : CategoricalDistributionLimitedActionsManual Obs) :
    Except Err (List ℕ) :=
  match st.sample_distribution with
  | none => .error .precondition
  | some d => .ok (d.logits.map argmaxIdx)

end CategoricalDistributionLimitedActionsManual

/- ------------------------------------------------------------------
CategoricalDistribution: its constructor prints a diagnostic and then
unconditionally raises, so no instance can ever be produced.
------------------------------------------------------------------ -/

/-- `CategoricalDistribution.__init__` stores `action_dim` and then
executes `raise Exception("In CategoricalDistribution")`, so
construction always fails. -/
def CategoricalDistribution.init (action_dim : ℕ) : Except Err ℕ :=
  .error .ctorRaise

/- ------------------------------------------------------------------
The factory make_proba_distribution.
------------------------------------------------------------------ -/

/-- The action-space descriptor (`gym.spaces`).  A `box` carries its
shape; `get_action_dim` for a box is the product of the shape. -/
inductive ActionSpace
  | box (shape : List ℕ)
  | discrete (n : ℕ)
  | multiDiscrete (nvec : List ℕ)
  | multiBinary (n : ℕ)
  | other
  deriving DecidableEq, Repr

/-- Which variant the factory produced, with the construction data it
was given. -/
inductive ProbaDist
  | diagGaussian (action_dim : ℕ)
  | stateDependentNoise (action_dim : ℕ)
  | categorical (action_dim : ℕ)
  | limitedActions (action_dim : ℕ)
  | multiCategorical (nvec : List ℕ)
  | bernoulli (n : ℕ)
  deriving DecidableEq, Repr

/-- The `dist_kwargs` configuration mapping, reduced to the two keys the
factory inspects.  A field is `true` when the key is present with a
usable (non-None, truthy) value. -/
structure DistKwargs where
  get_valid_actions : Bool := false
  get_invalid_actions_layer : Bool := false
  deriving DecidableEq, Repr

/-- `make_proba_distribution(action_space, use_sde, dist_kwargs)`.
`use_limited_actions` is set when either masking key is configured.
For a `Discrete` space with masking, the masking-layer key is looked up
(its absence while `get_valid_actions` is set makes the lookup, or the
constructor null check, raise - modelled `configuration`); the second
`Discrete`-with-masking branch of the source is dead code guarded by the
same condition as the first.  For a plain `Discrete` space the
`CategoricalDistribution` constructor is invoked, which always raises. -/
def make_proba_distribution (action_space : ActionSpace) (use_sde : Bool)
    (dist_kwargs : DistKwargs) : Except Err ProbaDist :=
  let use_limited_actions :=
    dist_kwargs.get_valid_actions || dist_kwargs.get_invalid_actions_layer
  match action_space with
  | .box shape =>
      .ok (if use_sde then .stateDependentNoise shape.prod
           else .diagGaussian shape.prod)
  | .discrete n =>
      if use_limited_actions then
        if dist_kwargs.get_invalid_actions_layer then .ok (.limitedActions n)
        else .error .configuration
      else
        match CategoricalDistribution.init n with
        | .error e => .error e
        | .ok m => .ok (.categorical m)
  | .multiDiscrete nvec => .ok (.multiCategorical nvec)
  | .multiBinary n => .ok (.bernoulli n)
  | .other => .error .notImplemented

/- ------------------------------------------------------------------
sum_independent_dims and the tensor shape model.
------------------------------------------------------------------ -/

/-- Tensors of the three ranks the module manipulates: 0-D scalars, 1-D
vectors and 2-D matrices. -/
inductive STensor
  | scalar (x : ℚ)
  | vec (v : List ℚ)
  | mat (m : Mat2)
  deriving DecidableEq, Repr

/-- `len(tensor.shape)`. -/
def STensor.ndim : STensor → ℕ
  | .scalar _ => 0
  | .vec _ => 1
  | .mat _ => 2

/-- `tensor.sum()`: sum of every element, a 0-D result. -/
def STensor.sumAll : STensor → ℚ
  | .scalar x => x
  | .vec v => v.sum
  | .mat m => (m.map List.sum).sum

/-- `tensor.sum(dim=1)`: row sums of a 2-D tensor.  torch raises on a
lower-rank input; that case is unreachable here because
`sum_independent_dims` only takes this branch when the rank exceeds 1. -/
def STensor.sumDim1 : STensor → STensor
  | .mat m => .vec (m.map List.sum)
  | t => t

/-- `sum_independent_dims`: sum over dimension 1 when the input has more
than one dimension, otherwise sum over everything (producing a 0-D
scalar). -/
def sum_independent_dims (tensor : STensor) : STensor :=
  if 1 < tensor.ndim then tensor.sumDim1 else .scalar tensor.sumAll

/-- Apply a per-position scalar function elementwise, the position being
the index inside a row (the action dimension): the shape-preserving
action of `Normal(mean, std).log_prob` on a tensor, with the
per-dimension density abstracted as `f`. -/
def elementwiseIdx (f : ℕ → ℚ → ℚ) : STensor → STensor
  | .scalar x => .scalar (f 0 x)
  | .vec v => .vec (v.mapIdx f)
  | .mat m => .mat (m.map (fun row => row.mapIdx f))

/-- `DiagGaussianDistribution.log_prob` as a shape transformation: the
elementary Gaussian log density (abstracted as `f`) applied elementwise,
then `sum_independent_dims`. -/
def diagGaussianLogProbShape (f : ℕ → ℚ → ℚ) (actions : STensor) : STensor :=
  sum_independent_dims (elementwiseIdx f actions)

/-- `sum_independent_dims` restricted to a statically 2-D input, used by
the per-class method models below (their tensors are always
(batch, dim)). -/
def sumIndependentDims2 (m : Mat2) : List ℚ := m.map List.sum

/- ------------------------------------------------------------------
Matrix arithmetic for gSDE noise.
------------------------------------------------------------------ -/

/-- Dot product of two rational vectors. -/
def dotQ (a b : List ℚ) : ℚ := (List.zipWith (· * ·) a b).sum

/-- Column `j` of a matrix (out-of-range entries default to 0; the
claims only evaluate in-range positions). -/
def matCol (m : Mat2) (j : ℕ) : List ℚ := m.map (fun r => r.getD j 0)

/-- Vector-matrix product: entry `j` is the dot product of `v` with
column `j` of `m`. -/
def vecMatMul (v : List ℚ) (m : Mat2) : List ℚ :=
  (List.range (m.headD []).length).map (fun j => dotQ v (matCol m j))

/-- `th.mm`: row `i` of the product is row `i` of `a` times `b`. -/
def matMul (a b : Mat2) : Mat2 := a.map (fun r => vecMatMul r b)

/-- Elementwise sum of two equal-shape matrices. -/
def matAdd (a b : Mat2) : Mat2 :=
  List.zipWith (fun r1 r2 => List.zipWith (· + ·) r1 r2) a b

/- ------------------------------------------------------------------
DiagGaussianDistribution and SquashedDiagGaussianDistribution.
------------------------------------------------------------------ -/

/-- A matrix of ones with the shape of `m` (`th.ones_like`). -/
def onesLike (m : Mat2) : Mat2 := m.map (fun row => row.map (fun _ => 1))

/-- Multiply each row of `a` elementwise with the vector `v`
(broadcasting `v` across the batch). -/
def rowBroadcastMul (a : Mat2) (v : List ℚ) : Mat2 :=
  a.map (fun row => List.zipWith (· * ·) row v)

/-- State of a `DiagGaussianDistribution` instance. -/
structure DiagGaussianDistribution where
  action_dim : ℕ
  distribution : Option NormalT := none

namespace DiagGaussianDistribution

/-- `proba_distribution(mean_actions, log_std)`: the std is
`ones_like(mean_actions) * log_std.exp()` broadcast across the batch. -/
def proba_distribution (o : Torch) (st : DiagGaussianDistribution)
    (mean_actions : Mat2) (log_std : List ℚ) : DiagGaussianDistribution :=
  { st with distribution := some ⟨mean_actions, rowBroadcastMul (onesLike mean_actions) (o.expV log_std)⟩ }

/-- `log_prob(actions)`: elementary Gaussian log density summed across
the action dimension.  Unbound: attribute access on `None` raises. -/
def log_prob (o : Torch) (st : DiagGaussianDistribution) (actions : Mat2) :
    Except Err (List ℚ) :=
  match st.distribution with
  | none => .error .precondition
  | some d => .ok (sumIndependentDims2 (o.normalLogProb d actions))

/-- `entropy()`: closed-form Gaussian entropy summed across dimensions. -/
def entropy (o : Torch) (st : DiagGaussianDistribution) :
    Except Err (Option (List ℚ)) :=
  match st.distribution with
  | none => .error .precondition
  | some d => .ok (some (sumIndependentDims2 (o.normalEntropy d)))

/-- `sample()`: reparameterized draw from the bound Gaussian. -/
def sample (o : Torch) (st : DiagGaussianDistribution) : Except Err Mat2 :=
  match st.distribution with
  | none => .error .precondition
  | some d => .ok (o.normalRSample d)

/-- `mode()`: the mean of the bound Gaussian. -/
def mode (st : DiagGaussianDistribution) : Except Err Mat2 :=
  match st.distribution with
  | none => .error .precondition
  | some d => .ok d.mean

end DiagGaussianDistribution

/-- State of a `SquashedDiagGaussianDistribution` instance. -/
structure SquashedDiagGaussianDistribution where
  action_dim : ℕ
  epsilon : ℚ := 1 / 1000000
  distribution : Option NormalT := none
  gaussian_actions : Option Mat2 := none

namespace SquashedDiagGaussianDistribution

/-- `log_prob(actions, gaussian_actions)`: recover the pre-tanh action
when it is not supplied, take the Gaussian log probability there, then
subtract the summed Jacobian correction `log(1 - actions**2 + epsilon)`. -/
def log_prob (o : Torch) (st : SquashedDiagGaussianDistribution)
    (actions : Mat2) (gaussian_actions : Option Mat2) : Except Err (List ℚ) :=
  let ga :=
    match gaussian_actions with
    | none => o.tanhInvM actions
    | some g => g
  match st.distribution with
  | none => .error .precondition
  | some d =>
      let lp := sumIndependentDims2 (o.normalLogProb d ga)
      let corr :=
        (o.logM (actions.map (fun row => row.map (fun a => 1 - a ^ 2 + st.epsilon)))).map
          List.sum
      .ok (List.zipWith (· - ·) lp corr)

/-- `entropy()` of the squashed Gaussian: `return None`, the
no-closed-form sentinel, returned unconditionally - the bound
distribution is never consulted. -/
def entropy (st : SquashedDiagGaussianDistribution) :
    Except Err (Option (List ℚ)) :=
  .ok none

/-- `sample()`: tanh of the underlying Gaussian draw. -/
def sample (o : Torch) (st : SquashedDiagGaussianDistribution) : Except Err Mat2 :=
  match st.distribution with
  | none => .error .precondition
  | some d => .ok (o.tanhM (o.normalRSample d))

/-- `mode()`: tanh of the underlying Gaussian mean. -/
def mode (o : Torch) (st : SquashedDiagGaussianDistribution) : Except Err Mat2 :=
  match st.distribution with
  | none => .error .precondition
  | some d => .ok (o.tanhM d.mean)

end SquashedDiagGaussianDistribution

/- ------------------------------------------------------------------
MultiCategoricalDistribution.
------------------------------------------------------------------ -/

/-- Split a row into consecutive chunks of the given sizes
(`th.split(..., dim=1)` acting on one row). -/
def splitRow : List ℚ → List ℕ → List (List ℚ)
  | _, [] => []
  | row, n :: ns => row.take n :: splitRow (row.drop n) ns

/-- `th.split(action_logits, action_dims, dim=1)`: the i-th chunk keeps
every row restricted to the i-th column block. -/
def splitCols (m : Mat2) (dims : List ℕ) : List Mat2 :=
  (List.range dims.length).map (fun i => m.map (fun row => (splitRow row dims).getD i []))

/-- Column `i` of a batch of multi-discrete actions
(`th.unbind(actions, dim=1)`). -/
def actionCol (actions : List (List ℕ)) (i : ℕ) : List ℕ :=
  actions.map (fun row => row.getD i 0)

/-- Sum a list of per-sub-space batch vectors across sub-spaces
(`th.stack(..., dim=1).sum(dim=1)`).  torch raises when stacking an
empty list; no claim exercises that case. -/
def sumAcrossSubspaces : List (List ℚ) → List ℚ
  | [] => []
  | x :: xs => xs.foldl (fun acc l => List.zipWith (· + ·) acc l) x

/-- State of a `MultiCategoricalDistribution` instance: one elementary
categorical per sub-space after binding. -/
structure MultiCategoricalDistribution where
  action_dims : List ℕ
  distribution : Option (List CategoricalQ) := none

namespace MultiCategoricalDistribution

/-- `proba_distribution(action_logits)`: split the logits by the
declared cardinalities and build one categorical per chunk. -/
def proba_distribution (st : MultiCategoricalDistribution) (action_logits : Mat2) :
    MultiCategoricalDistribution :=
  { st with distribution := some ((splitCols action_logits st.action_dims).map CategoricalQ.mk) }

/-- `log_prob(actions)`: per-sub-space log probabilities summed across
sub-spaces.  Unbound: iterating `None` raises. -/
def log_prob (o : Torch) (st : MultiCategoricalDistribution)
    (actions : List (List ℕ)) : Except Err (List ℚ) :=
  match st.distribution with
  | none => .error .precondition
  | some ds =>
      .ok (sumAcrossSubspaces
        ((List.range ds.length).map
          (fun i => o.catLogProb (ds.getD i ⟨[]⟩) (actionCol actions i))))

/-- `entropy()`: per-sub-space entropies summed across sub-spaces. -/
def entropy (o : Torch) (st : MultiCategoricalDistribution) :
    Except Err (Option (List ℚ)) :=
  match st.distribution with
  | none => .error .precondition
  | some ds => .ok (some (sumAcrossSubspaces (ds.map o.catEntropy)))

/-- `sample()`: stacked per-sub-space draws. -/
def sample (o : Torch) (st : MultiCategoricalDistribution) :
    Except Err (List (List ℕ)) :=
  match st.distribution with
  | none => .error .precondition
  | some ds =>
      .ok (match ds.map o.catSample with
        | [] => []
        | c :: cs => (cs.foldl (fun acc l => List.zipWith (fun r x => r ++ [x]) acc l)
            (c.map (fun x => [x]))))

/-- `mode()`: stacked per-sub-space argmaxes. -/
def mode (st : MultiCategoricalDistribution) : Except Err (List (List ℕ)) :=
  match st.distribution with
  | none => .error .precondition
  | some ds =>
      .ok (match ds.map (fun d => d.logits.map argmaxIdx) with
        | [] => []
        | c :: cs => (cs.foldl (fun acc l => List.zipWith (fun r x => r ++ [x]) acc l)
            (c.map (fun x => [x]))))

end MultiCategoricalDistribution

/- ------------------------------------------------------------------
BernoulliDistribution.
------------------------------------------------------------------ -/

/-- State of a `BernoulliDistribution` instance; the elementary
Bernoulli is identified by its logits. -/
structure BernoulliDistribution where
  action_dims : ℕ
  distribution : Option Mat2 := none

namespace BernoulliDistribution

/-- `proba_distribution(action_logits)`. -/
def proba_distribution (st : BernoulliDistribution) (action_logits : Mat2) :
    BernoulliDistribution :=
  { st with distribution := some action_logits }

/-- `log_prob(actions)`: elementary log probabilities summed across the
action dimension. -/
def log_prob (o : Torch) (st : BernoulliDistribution) (actions : Mat2) :
    Except Err (List ℚ) :=
  match st.distribution with
  | none => .error .precondition
  | some d => .ok ((o.bernLogProb d actions).map List.sum)

/-- `entropy()`: elementary entropies summed across the action
dimension. -/
def entropy (o : Torch) (st : BernoulliDistribution) :
    Except Err (Option (List ℚ)) :=
  match st.distribution with
  | none => .error .precondition
  | some d => .ok (some ((o.bernEntropy d).map List.sum))

/-- `sample()`. -/
def sample (o : Torch) (st : BernoulliDistribution) : Except Err Mat2 :=
  match st.distribution with
  | none => .error .precondition
  | some d => .ok (o.bernSample d)

/-- `mode()`: `th.round` of the probabilities.  Rounding is modelled by
the integer rounding of Mathlib; it can differ from torch only on exact
halves, which the spec leaves implementation-defined and no claim
touches. -/
def mode (o : Torch) (st : BernoulliDistribution) : Except Err Mat2 :=
  match st.distribution with
  | none => .error .precondition
  | some d => .ok ((o.bernProbs d).map (fun row => row.map (fun q => ((round q : ℤ) : ℚ))))

end BernoulliDistribution

/- ------------------------------------------------------------------
StateDependentNoiseDistribution (gSDE), rational part: the noise
application and the pre-bind behavior of the query methods.
------------------------------------------------------------------ -/

/-- State of a `StateDependentNoiseDistribution` instance.  `bijector`
is set exactly when the instance was constructed with
`squash_output=True`.  `exploration_mat` and `exploration_matrices` are
populated by `sample_weights`, which always runs during network
construction; the claims never query them earlier. -/
structure StateDependentNoiseDistribution where
  action_dim : ℕ
  bijector : Bool
  learn_features : Bool := false
  distribution : Option NormalT := none
  latent_sde : Option Mat2 := none
  exploration_mat : Mat2 := []
  exploration_matrices : List Mat2 := []

namespace StateDependentNoiseDistribution

/-- `get_noise(latent_sde)`: with a batch of size 1, or a batch whose
size differs from the number of pre-sampled exploration matrices, every
row is multiplied by the single base matrix; otherwise row `i` is
multiplied by the i-th pre-sampled matrix (`th.bmm` after unsqueezing,
then squeezing).  The `detach` on the features changes gradients only,
not values. -/
def get_noise (st : StateDependentNoiseDistribution) (latent : Mat2) : Mat2 :=
  if latent.length = 1 ∨ latent.length ≠ st.exploration_matrices.length then
    matMul latent st.exploration_mat
  else
    List.zipWith vecMatMul latent st.exploration_matrices

/-- `sample()`: `distribution.mean + get_noise(self._latent_sde)`,
optionally squashed.  Unbound: `None` feature access raises. -/
def sample (o : Torch) (st : StateDependentNoiseDistribution) : Except Err Mat2 :=
  match st.latent_sde with
  | none => .error .precondition
  | some l =>
      match st.distribution with
      | none => .error .precondition
      | some d =>
          let actions := matAdd d.mean (st.get_noise l)
          .ok (if st.bijector then o.tanhM actions else actions)

/-- `mode()`: the mean, optionally squashed. -/
def mode (o : Torch) (st : StateDependentNoiseDistribution) : Except Err Mat2 :=
  match st.distribution with
  | none => .error .precondition
  | some d => .ok (if st.bijector then o.tanhM d.mean else d.mean)

/-- `log_prob(actions)`: invert the squashing when configured, take the
Gaussian log probability, subtract the summed Jacobian correction when
squashing is configured. -/
def log_prob (o : Torch) (st : StateDependentNoiseDistribution) (actions : Mat2) :
    Except Err (List ℚ) :=
  let gaussian_actions := if st.bijector then o.tanhInvM actions else actions
  match st.distribution with
  | none => .error .precondition
  | some d =>
      let lp := sumIndependentDims2 (o.normalLogProb d gaussian_actions)
      .ok (if st.bijector then
            List.zipWith (· - ·) lp ((o.logProbCorrM gaussian_actions).map List.sum)
          else lp)

/-- `entropy()`: when a bijector is configured the method returns the
no-closed-form sentinel `None` immediately, without consulting the
bound distribution; otherwise the Gaussian entropy of the bound
distribution, summed across dimensions. -/
def entropy (o : Torch) (st : StateDependentNoiseDistribution) :
    Except Err (Option (List ℚ)) :=
  if st.bijector then .ok none
  else
    match st.distribution with
    | none => .error .precondition
    | some d => .ok (some (sumIndependentDims2 (o.normalEntropy d)))

end StateDependentNoiseDistribution

/- ------------------------------------------------------------------
StateDependentNoiseDistribution.get_std and TanhBijector, modelled over
the reals (they are built from exp / log and have no rational meaning).
------------------------------------------------------------------ -/

/-- Elementwise action of `StateDependentNoiseDistribution.get_std` on
one entry of `log_std` when `use_expln` is set:
`below_threshold = exp(log_std) * (log_std <= 0)`,
`safe_log_std = log_std * (log_std > 0) + epsilon`,
`above_threshold = (log1p(safe_log_std) + 1) * (log_std > 0)`,
`std = below_threshold + above_threshold`, with the boolean indicators
becoming 0/1 factors and `log1p x = log (1 + x)`.  The `full_std`
branch of the method only reshapes the result and is omitted. -/
noncomputable def get_std_expln (epsilon log_std : ℝ) : ℝ :=
  Real.exp log_std * (if log_std ≤ 0 then 1 else 0) +
    (Real.log (1 + (log_std * (if 0 < log_std then 1 else 0) + epsilon)) + 1) *
      (if 0 < log_std then 1 else 0)

namespace TanhBijector

/-- `TanhBijector.atanh(x) = 0.5 * (x.log1p() - (-x).log1p())`. -/
noncomputable def atanh (x : ℝ) : ℝ :=
  (1 / 2) * (Real.log (1 + x) - Real.log (1 + -x))

/-- `TanhBijector.inverse(y)`: clamp to `[-1 + eps, 1 - eps]` (torch
`clamp` takes the max with the lower bound, then the min with the upper
bound) and apply `atanh`.  `eps = th.finfo(y.dtype).eps` is a property
of the floating type; it enters the model as the parameter `eps`. -/
noncomputable def inverse (eps y : ℝ) : ℝ :=
  atanh (min (max y (-1 + eps)) (1 - eps))

end TanhBijector

/- ------------------------------------------------------------------
kl_divergence and its np.allclose collaborator.
------------------------------------------------------------------ -/

/-- One elementary torch distribution as stored in a bound instance. -/
inductive Elem
  | normal (d : NormalT)
  | categorical (c : CategoricalQ)
  | bernoulli (logits : Mat2)
  deriving DecidableEq, Repr

/-- The Python classes of the distribution variants, for the
`dist_true.__class__ == dist_pred.__class__` comparison (a subclass is
a distinct class, so the squashed and masked variants are distinct
entries). -/
inductive DistClass
  | diagGaussian
  | squashedDiagGaussian
  | categorical
  | limitedActions
  | limitedActionsManual
  | multiCategorical
  | bernoulli
  | stateDependentNoise
  deriving DecidableEq, Repr

/-- A bound distribution instance as seen by `kl_divergence`: its class
together with the elementary distribution(s) stored in
`self.distribution` (a list of categoricals for the MultiCategorical
variant, one elementary distribution otherwise) and, for
MultiCategorical, its `action_dims` (an integer numpy array, carried
as rationals because `np.allclose` compares it numerically). -/
inductive AnyDist
  | diagGaussian (d : Elem)
  | squashedDiagGaussian (d : Elem)
  | categorical (d : Elem)
  | limitedActions (d : Elem)
  | limitedActionsManual (d : Elem)
  | multiCategorical (action_dims : List ℚ) (dists : List Elem)
  | bernoulli (d : Elem)
  | stateDependentNoise (d : Elem)
  deriving DecidableEq, Repr

/-- The `__class__` of a bound instance. -/
def AnyDist.cls : AnyDist → DistClass
  | .diagGaussian _ => .diagGaussian
  | .squashedDiagGaussian _ => .squashedDiagGaussian
  | .categorical _ => .categorical
  | .limitedActions _ => .limitedActions
  | .limitedActionsManual _ => .limitedActionsManual
  | .multiCategorical _ _ => .multiCategorical
  | .bernoulli _ => .bernoulli
  | .stateDependentNoise _ => .stateDependentNoise

/-- The single elementary distribution of a non-MultiCategorical
instance. -/
def AnyDist.elemDist : AnyDist → Option Elem
  | .diagGaussian d => some d
  | .squashedDiagGaussian d => some d
  | .categorical d => some d
  | .limitedActions d => some d
  | .limitedActionsManual d => some d
  | .multiCategorical _ _ => none
  | .bernoulli d => some d
  | .stateDependentNoise d => some d

/-- `np.isclose` with the default tolerances
`atol = 1e-8`, `rtol = 1e-5`: `|a - b| <= atol + rtol * |b|`. -/
def iscloseQ (a b : ℚ) : Bool :=
  decide (|a - b| ≤ 1 / 100000000 + (1 / 100000) * |b|)

/-- `np.allclose` on two 1-D arrays: equal lengths compare elementwise;
a length-1 array broadcasts against the other; any other length
mismatch raises a broadcast `ValueError`. -/
def npAllclose (a b : List ℚ) : Except Err Bool :=
  if a.length = b.length then
    .ok ((List.zipWith iscloseQ a b).all id)
  else
    match a, b with
    | [x], _ => .ok (b.all (fun y => iscloseQ x y))
    | _, [y] => .ok (a.all (fun x => iscloseQ x y))
    | _, _ => .error .valueError

/-- `kl_divergence(dist_true, dist_pred)`.  The class-equality assert
fails on mismatched variants.  For MultiCategorical the
`np.allclose(dist_pred.action_dims, dist_true.action_dims)` assert runs
(note the argument order of the source), then the per-sub-space torch
KLs of the zipped elementary pairs are stacked and summed across
sub-spaces; `zip` silently truncates to the shorter list.  Every other
variant delegates to the torch KL of the two stored elementary
distributions, abstracted as `elemKL` (one `[batch]` vector per call).
The final fallback arm is unreachable: two non-MultiCategorical
instances of equal class always expose their elementary distribution. -/
def kl_divergence (elemKL : Elem → Elem → List ℚ) (dist_true dist_pred : AnyDist) :
    Except Err (List ℚ) :=
  if dist_true.cls = dist_pred.cls then
    match dist_true, dist_pred with
    | .multiCategorical dimsTrue ps, .multiCategorical dimsPred qs =>
        match npAllclose dimsPred dimsTrue with
        | .error e => .error e
        | .ok false => .error .precondition
        | .ok true => .ok (sumAcrossSubspaces (List.zipWith elemKL ps qs))
    | p, q =>
        match p.elemDist, q.elemDist with
        | some a, some b => .ok (elemKL a b)
        | _, _ => .error .precondition
  else .error .precondition

/-- A concrete masked-categorical instance over a 3-action space whose
masking layer flags exactly action 1 as invalid, the worked example of
the spec. -/
def exampleMasked : CategoricalDistributionLimitedActions Unit :=
  { action_dim := 3, get_invalid_actions_layer := fun _ => [[0, 1, 0]] }

/- ------------------------------------------------------------------
Helper lemmas on list indexing.
------------------------------------------------------------------ -/

/-- In-range `getD` commutes with `map`. -/
theorem getD_map_of_lt {α β : Type} (f : α → β) (l : List α) (i : ℕ)
    (hi : i < l.length) (da : α) (db : β) :
    (l.map f).getD i db = f (l.getD i da) := by
  induction l generalizing i with
  | nil => simp at hi
  | cons x xs ih =>
      cases i with
      | zero => simp
      | succ n =>
          simp only [List.map_cons, List.getD_cons_succ]
          exact ih n (by simpa using hi)

/-- In-range `getD` commutes with `zipWith`. -/
theorem getD_zipWith_of_lt {α β γ : Type} (f : α → β → γ) (a : List α) (b : List β)
    (i : ℕ) (ha : i < a.length) (hb : i < b.length) (da : α) (db : β) (dc : γ) :
    (List.zipWith f a b).getD i dc = f (a.getD i da) (b.getD i db) := by
  induction a generalizing b i with
  | nil => simp at ha
  | cons x xs ih =>
      cases b with
      | nil => simp at hb
      | cons y ys =>
          cases i with
          | zero => simp
          | succ n =>
              simp only [List.zipWith_cons_cons, List.getD_cons_succ]
              exact ih ys n (by simpa using ha) (by simpa using hb)

/-- Two nested lists with the same row-length profile have the same
number of rows. -/
theorem length_eq_of_shape {α β : Type} (a : List (List α)) (b : List (List β))
    (h : a.map List.length = b.map List.length) : a.length = b.length := by
  have := congrArg List.length h
  simpa using this

/-- Two nested lists with the same row-length profile have rows of equal
length at every in-range index. -/
theorem rowLength_eq_of_shape {α β : Type} (a : List (List α)) (b : List (List β))
    (h : a.map List.length = b.map List.length) (i : ℕ) (hia : i < a.length) :
    (a.getD i []).length = (b.getD i []).length := by
  have hib : i < b.length := length_eq_of_shape a b h ▸ hia
  have h1 : (a.map List.length).getD i 0 = (a.getD i []).length :=
    getD_map_of_lt List.length a i hia [] 0
  have h2 : (b.map List.length).getD i 0 = (b.getD i []).length :=
    getD_map_of_lt List.length b i hib [] 0
  rw [h] at h1
  rw [h2] at h1
  exact h1.symm

/-- Entrywise description of `maskLogits` at an in-range position. -/
theorem maskLogits_getD (L : Mat2) (mask : List (List Bool)) (v : ℚ) (i j : ℕ)
    (hiL : i < L.length) (hiM : i < mask.length)
    (hjL : j < (L.getD i []).length) (hjM : j < (mask.getD i []).length) :
    ((maskLogits L mask v).getD i []).getD j 0 =
      if (mask.getD i []).getD j false then v else (L.getD i []).getD j 0 := by
  unfold maskLogits
  rw [getD_zipWith_of_lt _ L mask i hiL hiM [] [] []]
  rw [getD_zipWith_of_lt _ _ _ j hjL hjM 0 false 0]

/-- The row of `invalidMask` at an in-range index. -/
theorem invalidMask_row (out : Mat2) (i : ℕ) (hi : i < out.length) :
    (invalidMask out).getD i [] = (out.getD i []).map (fun x => decide (0 < x)) := by
  unfold invalidMask
  exact getD_map_of_lt _ out i hi [] []

/-- Entrywise description of `invalidMask` at an in-range position. -/
theorem invalidMask_getD (out : Mat2) (i j : ℕ) (hi : i < out.length)
    (hj : j < (out.getD i []).length) :
    ((invalidMask out).getD i []).getD j false = decide (0 < (out.getD i []).getD j 0) := by
  rw [invalidMask_row out i hi]
  exact getD_map_of_lt _ _ j hj 0 false

/-- `invalidMask` preserves the number of rows. -/
theorem invalidMask_length (out : Mat2) : (invalidMask out).length = out.length := by
  simp [invalidMask]

/- ------------------------------------------------------------------
Claims.
------------------------------------------------------------------ -/

/-- Claim C1 (code bug evaluation): for a Discrete action space with no
masking collaborator configured and the exploration flag unset, the
factory does not return a CategoricalDistribution - it raises, because
`CategoricalDistribution.__init__` unconditionally executes
`raise Exception("In CategoricalDistribution")` after printing a
diagnostic.  Evaluated here at the failing input `Discrete(2)` with
empty configuration. -/
theorem claimC1_factory_discrete_raises :
    make_proba_distribution (.discrete 2) false {} = .error .ctorRaise := rfl

/-- Claim C3: for the masked categorical variant that the factory can
return (`CategoricalDistributionLimitedActions`), after any bind both
`sample` and `log_prob` evaluate the single categorical built from the
masked (adjusted) logits - for every interpretation of the torch
sampling and log-probability primitives, every instance, every logits
tensor and every observation; and the factory dispatches a Discrete
space with a masking collaborator to exactly this variant. -/
theorem claimC3_masked_consistency {Obs : Type} (o : Torch)
    (st : CategoricalDistributionLimitedActions Obs) (action_logits : Mat2)
    (obs : Obs) (actions : List ℕ) (n : ℕ) :
    CategoricalDistributionLimitedActions.sample o (st.proba_distribution action_logits obs) =
      .ok (o.catSample ⟨maskLogits action_logits
        (invalidMask (st.get_invalid_actions_layer obs)) (invalidLogitValue action_logits)⟩)
    ∧ CategoricalDistributionLimitedActions.log_prob o
        (st.proba_distribution action_logits obs) actions =
      .ok (o.catLogProb ⟨maskLogits action_logits
        (invalidMask (st.get_invalid_actions_layer obs)) (invalidLogitValue action_logits)⟩
        actions)
    ∧ make_proba_distribution (.discrete n) false { get_invalid_actions_layer := true } =
        .ok (.limitedActions n) :=
  ⟨rfl, rfl, rfl⟩

/-- Claim C10: `sum_independent_dims` sums over dimension 1 and keeps
the batch dimension only for inputs of more than one dimension; a 1-D
input is summed over all elements into a 0-D scalar, so the Gaussian
log-probability pipeline applied to an unbatched 1-D tensor collapses
what the caller may intend as the batch dimension into a single scalar
(here `f` abstracts the per-dimension Gaussian log density). -/
theorem claimC10_sum_independent_dims (m : Mat2) (v : List ℚ) (f : ℕ → ℚ → ℚ) :
    sum_independent_dims (.mat m) = .vec (m.map List.sum)
    ∧ sum_independent_dims (.vec v) = .scalar v.sum
    ∧ (sum_independent_dims (.vec v)).ndim = 0
    ∧ diagGaussianLogProbShape f (.mat m) =
        .vec ((m.map (fun row => row.mapIdx f)).map List.sum)
    ∧ diagGaussianLogProbShape f (.vec v) = .scalar (v.mapIdx f).sum
    ∧ (diagGaussianLogProbShape f (.vec v)).ndim = 0 :=
  ⟨rfl, rfl, rfl, rfl, rfl, rfl⟩

/-- Claim C4 (counterexample): `entropy()` on a freshly constructed,
never-bound `SquashedDiagGaussianDistribution` does not raise - the
method returns the no-closed-form sentinel `None` unconditionally, so
the unbound state is never consulted.  The claim says every query
method on every variant raises before binding. -/
theorem claimC4_counterexample :
    SquashedDiagGaussianDistribution.entropy ⟨2, 1 / 1000000, none, none⟩ = .ok none
    ∧ (Except.ok none : Except Err (Option (List ℚ))) ≠ .error .precondition :=
  ⟨rfl, by simp⟩

/-- Claim C4 (amended): on a freshly constructed instance of every
variant, `sample`, `mode` and `log_prob` raise before any bind, and so
does `entropy` - except that `entropy` on the squashed variants
(`SquashedDiagGaussianDistribution` always, and
`StateDependentNoiseDistribution` when constructed with squashing) is
the no-closed-form sentinel and returns `None` without raising; the
plain `CategoricalDistribution` cannot even be freshly constructed,
since its constructor itself raises. -/
theorem claimC4_amended {Obs : Type} (o : Torch) (adim : ℕ) (eps : ℚ)
    (actions : Mat2) (ga : Option Mat2) (macts : List (List ℕ)) (acts1 : List ℕ)
    (layer : Obs → Mat2) (gva : Obs → List ℚ) (dims : List ℕ) (lf bij : Bool)
    (emat : Mat2) (emats : List Mat2) :
    DiagGaussianDistribution.sample o ⟨adim, none⟩ = .error .precondition
    ∧ DiagGaussianDistribution.mode ⟨adim, none⟩ = .error .precondition
    ∧ DiagGaussianDistribution.log_prob o ⟨adim, none⟩ actions = .error .precondition
    ∧ DiagGaussianDistribution.entropy o ⟨adim, none⟩ = .error .precondition
    ∧ SquashedDiagGaussianDistribution.sample o ⟨adim, eps, none, none⟩ =
        .error .precondition
    ∧ SquashedDiagGaussianDistribution.mode o ⟨adim, eps, none, none⟩ =
        .error .precondition
    ∧ SquashedDiagGaussianDistribution.log_prob o ⟨adim, eps, none, none⟩ actions ga =
        .error .precondition
    ∧ SquashedDiagGaussianDistribution.entropy ⟨adim, eps, none, none⟩ = .ok none
    ∧ CategoricalDistribution.init adim = .error .ctorRaise
    ∧ CategoricalDistributionLimitedActions.sample o
        ⟨adim, layer, none, none, none, none, none⟩ = .error .precondition
    ∧ CategoricalDistributionLimitedActions.mode
        ⟨adim, layer, none, none, none, none, none⟩ = .error .precondition
    ∧ CategoricalDistributionLimitedActions.log_prob o
        ⟨adim, layer, none, none, none, none, none⟩ acts1 = .error .precondition
    ∧ CategoricalDistributionLimitedActions.entropy o
        ⟨adim, layer, none, none, none, none, none⟩ = .error .precondition
    ∧ CategoricalDistributionLimitedActionsManual.sample o ⟨adim, gva, none, none⟩ =
        .error .precondition
    ∧ CategoricalDistributionLimitedActionsManual.mode ⟨adim, gva, none, none⟩ =
        .error .precondition
    ∧ CategoricalDistributionLimitedActionsManual.log_prob o ⟨adim, gva, none, none⟩
        acts1 = .error .precondition
    ∧ CategoricalDistributionLimitedActionsManual.entropy o ⟨adim, gva, none, none⟩ =
        .error .precondition
    ∧ MultiCategoricalDistribution.sample o ⟨dims, none⟩ = .error .precondition
    ∧ MultiCategoricalDistribution.mode ⟨dims, none⟩ = .error .precondition
    ∧ MultiCategoricalDistribution.log_prob o ⟨dims, none⟩ macts = .error .precondition
    ∧ MultiCategoricalDistribution.entropy o ⟨dims, none⟩ = .error .precondition
    ∧ BernoulliDistribution.sample o ⟨adim, none⟩ = .error .precondition
    ∧ BernoulliDistribution.mode o ⟨adim, none⟩ = .error .precondition
    ∧ BernoulliDistribution.log_prob o ⟨adim, none⟩ actions = .error .precondition
    ∧ BernoulliDistribution.entropy o ⟨adim, none⟩ = .error .precondition
    ∧ StateDependentNoiseDistribution.sample o ⟨adim, bij, lf, none, none, emat, emats⟩ =
        .error .precondition
    ∧ StateDependentNoiseDistribution.mode o ⟨adim, bij, lf, none, none, emat, emats⟩ =
        .error .precondition
    ∧ StateDependentNoiseDistribution.log_prob o
        ⟨adim, bij, lf, none, none, emat, emats⟩ actions = .error .precondition
    ∧ StateDependentNoiseDistribution.entropy o
        ⟨adim, bij, lf, none, none, emat, emats⟩ =
        (if bij then .ok none else .error .precondition) :=
  ⟨rfl, rfl, rfl, rfl, rfl, rfl, rfl, rfl, rfl, rfl, rfl, rfl, rfl, rfl, rfl, rfl,
    rfl, rfl, rfl, rfl, rfl, rfl, rfl, rfl, rfl, rfl, rfl, rfl,
    by cases bij <;> rfl⟩

/-- Claim C2: in every masked bind (margin 10), the invalid logit value
is `min(raw_logits) - 10` when that is below `-10` and exactly `-10`
otherwise; flagged positions are overwritten with this value and all
other positions keep their raw logit; and on the worked example
(logits `[1,2,3]`, only index 1 flagged) the adjusted logits are
`[1,-10,3]` and `mode` returns index 2. -/
theorem claimC2_masked_bind {Obs : Type}
    (st : CategoricalDistributionLimitedActions Obs) (action_logits : Mat2)
    (obs : Obs) (i j : ℕ)
    (hshape : (st.get_invalid_actions_layer obs).map List.length =
      action_logits.map List.length)
    (hi : i < action_logits.length)
    (hj : j < (action_logits.getD i []).length) :
    (st.proba_distribution action_logits obs).invalid_logit_value =
      some (if -10 ≤ globalMin action_logits - 10 then -10
            else globalMin action_logits - 10)
    ∧ (((st.proba_distribution action_logits obs).new_action_logits.getD []).getD
          i []).getD j 0 =
        (if ((invalidMask (st.get_invalid_actions_layer obs)).getD i []).getD j false
         then invalidLogitValue action_logits
         else (action_logits.getD i []).getD j 0)
    ∧ (exampleMasked.proba_distribution [[1, 2, 3]] ()).new_action_logits =
        some [[1, -10, 3]]
    ∧ (exampleMasked.proba_distribution [[1, 2, 3]] ()).invalid_logit_value =
        some (-10)
    ∧ CategoricalDistributionLimitedActions.mode
        (exampleMasked.proba_distribution [[1, 2, 3]] ()) = .ok [2] := by
  refine ⟨rfl, ?_,
    by norm_num [CategoricalDistributionLimitedActions.proba_distribution,
      exampleMasked, invalidMask, maskLogits, invalidLogitValue, globalMin],
    by norm_num [CategoricalDistributionLimitedActions.proba_distribution,
      exampleMasked, invalidLogitValue, globalMin],
    by norm_num [CategoricalDistributionLimitedActions.proba_distribution,
      CategoricalDistributionLimitedActions.mode, exampleMasked, invalidMask,
      maskLogits, invalidLogitValue, globalMin, argmaxIdx, argmaxFrom]⟩
  have hout : i < (st.get_invalid_actions_layer obs).length :=
    (length_eq_of_shape _ _ hshape).symm ▸ hi
  have hiM : i < (invalidMask (st.get_invalid_actions_layer obs)).length := by
    rw [invalidMask_length]
    exact hout
  have hrow : ((st.get_invalid_actions_layer obs).getD i []).length =
      (action_logits.getD i []).length :=
    rowLength_eq_of_shape _ _ hshape i hout
  have hmrow : ((invalidMask (st.get_invalid_actions_layer obs)).getD i []).length =
      (action_logits.getD i []).length := by
    rw [invalidMask_row _ i hout, List.length_map, hrow]
  have hjM : j < ((invalidMask (st.get_invalid_actions_layer obs)).getD i []).length :=
    hmrow.symm ▸ hj
  have hnd : (st.proba_distribution action_logits obs).new_action_logits =
      some (maskLogits action_logits
        (invalidMask (st.get_invalid_actions_layer obs))
        (invalidLogitValue action_logits)) := rfl
  rw [hnd]
  exact maskLogits_getD action_logits _ _ i j hi hiM hj hjM

/-- Claim C2, witness: the theorem applied to the worked example at
position (0, 1). -/
theorem claimC2_masked_bind_witness :
    ((exampleMasked.get_invalid_actions_layer ()).map List.length =
      ([[1, 2, 3]] : Mat2).map List.length)
    ∧ 0 < ([[1, 2, 3]] : Mat2).length
    ∧ 1 < (([[1, 2, 3]] : Mat2).getD 0 []).length
    ∧ ((exampleMasked.proba_distribution [[1, 2, 3]] ()).invalid_logit_value =
        some (if -10 ≤ globalMin [[1, 2, 3]] - 10 then -10
              else globalMin [[1, 2, 3]] - 10)
      ∧ (((exampleMasked.proba_distribution [[1, 2, 3]] ()).new_action_logits.getD
            []).getD 0 []).getD 1 0 =
          (if ((invalidMask (exampleMasked.get_invalid_actions_layer ())).getD 0
                []).getD 1 false
           then invalidLogitValue [[1, 2, 3]]
           else (([[1, 2, 3]] : Mat2).getD 0 []).getD 1 0)
      ∧ (exampleMasked.proba_distribution [[1, 2, 3]] ()).new_action_logits =
          some [[1, -10, 3]]
      ∧ (exampleMasked.proba_distribution [[1, 2, 3]] ()).invalid_logit_value =
          some (-10)
      ∧ CategoricalDistributionLimitedActions.mode
          (exampleMasked.proba_distribution [[1, 2, 3]] ()) = .ok [2]) :=
  ⟨by decide, by decide, by decide,
    claimC2_masked_bind exampleMasked [[1, 2, 3]] () 0 1 (by decide) (by decide)
      (by decide)⟩

/-- Claim C9: in the masked bind, a position is flagged invalid exactly
when the masking layer output there is strictly greater than 0; an
output of exactly 0 leaves the action valid, so its logit is unchanged
(the adjusted logit equals the raw logit whenever the layer output is
not strictly positive). -/
theorem claimC9_mask_strict_positivity {Obs : Type}
    (st : CategoricalDistributionLimitedActions Obs) (action_logits : Mat2)
    (obs : Obs) (i j : ℕ)
    (hshape : (st.get_invalid_actions_layer obs).map List.length =
      action_logits.map List.length)
    (hi : i < action_logits.length)
    (hj : j < (action_logits.getD i []).length) :
    (st.proba_distribution action_logits obs).invalid_actions =
      some (invalidMask (st.get_invalid_actions_layer obs))
    ∧ ((invalidMask (st.get_invalid_actions_layer obs)).getD i []).getD j false =
        decide (0 < ((st.get_invalid_actions_layer obs).getD i []).getD j 0)
    ∧ (((st.proba_distribution action_logits obs).new_action_logits.getD []).getD
          i []).getD j 0 =
        (if 0 < ((st.get_invalid_actions_layer obs).getD i []).getD j 0
         then invalidLogitValue action_logits
         else (action_logits.getD i []).getD j 0) := by
  have hout : i < (st.get_invalid_actions_layer obs).length :=
    (length_eq_of_shape _ _ hshape).symm ▸ hi
  have hrow : ((st.get_invalid_actions_layer obs).getD i []).length =
      (action_logits.getD i []).length :=
    rowLength_eq_of_shape _ _ hshape i hout
  have hjout : j < ((st.get_invalid_actions_layer obs).getD i []).length := by
    rw [hrow]
    exact hj
  have hmask : ((invalidMask (st.get_invalid_actions_layer obs)).getD i []).getD
      j false = decide (0 < ((st.get_invalid_actions_layer obs).getD i []).getD j 0) :=
    invalidMask_getD _ i j hout hjout
  refine ⟨rfl, hmask, ?_⟩
  have hiM : i < (invalidMask (st.get_invalid_actions_layer obs)).length := by
    rw [invalidMask_length]
    exact hout
  have hmrow : ((invalidMask (st.get_invalid_actions_layer obs)).getD i []).length =
      (action_logits.getD i []).length := by
    rw [invalidMask_row _ i hout, List.length_map, hrow]
  have hjM : j < ((invalidMask (st.get_invalid_actions_layer obs)).getD i []).length :=
    hmrow.symm ▸ hj
  have hnd : (st.proba_distribution action_logits obs).new_action_logits =
      some (maskLogits action_logits
        (invalidMask (st.get_invalid_actions_layer obs))
        (invalidLogitValue action_logits)) := rfl
  rw [hnd, Option.getD_some]
  rw [maskLogits_getD action_logits _ _ i j hi hiM hj hjM, hmask]
  by_cases hpos : 0 < ((st.get_invalid_actions_layer obs).getD i []).getD j 0
  · simp [hpos]
  · simp [hpos]

/-- Claim C9, witness: the theorem applied to the worked example at
position (0, 0), where the layer output is exactly 0 and the logit is
left unchanged. -/
theorem claimC9_mask_strict_positivity_witness :
    ((exampleMasked.get_invalid_actions_layer ()).map List.length =
      ([[1, 2, 3]] : Mat2).map List.length)
    ∧ 0 < ([[1, 2, 3]] : Mat2).length
    ∧ 0 < (([[1, 2, 3]] : Mat2).getD 0 []).length
    ∧ ((exampleMasked.proba_distribution [[1, 2, 3]] ()).invalid_actions =
        some (invalidMask (exampleMasked.get_invalid_actions_layer ()))
      ∧ ((invalidMask (exampleMasked.get_invalid_actions_layer ())).getD 0
            []).getD 0 false =
          decide (0 < ((exampleMasked.get_invalid_actions_layer ()).getD 0 []).getD 0 0)
      ∧ (((exampleMasked.proba_distribution [[1, 2, 3]] ()).new_action_logits.getD
            []).getD 0 []).getD 0 0 =
          (if 0 < ((exampleMasked.get_invalid_actions_layer ()).getD 0 []).getD 0 0
           then invalidLogitValue [[1, 2, 3]]
           else (([[1, 2, 3]] : Mat2).getD 0 []).getD 0 0)) :=
  ⟨by decide, by decide, by decide,
    claimC9_mask_strict_positivity exampleMasked [[1, 2, 3]] () 0 0 (by decide)
      (by decide) (by decide)⟩

/-- Claim C8: row `i` of `get_noise(latent_features)` equals row `i` of
the features multiplied by the single base exploration matrix (the same
matrix for every row) when the batch size is 1 or differs from the
number of pre-sampled matrices, and equals row `i` of the features
multiplied by the i-th pre-sampled matrix otherwise. -/
theorem claimC8_get_noise (st : StateDependentNoiseDistribution) (latent : Mat2)
    (i : ℕ) (hi : i < latent.length) :
    (st.get_noise latent).getD i [] =
      (if latent.length = 1 ∨ latent.length ≠ st.exploration_matrices.length then
        vecMatMul (latent.getD i []) st.exploration_mat
      else vecMatMul (latent.getD i []) (st.exploration_matrices.getD i [])) := by
  unfold StateDependentNoiseDistribution.get_noise
  split_ifs with h
  · unfold matMul
    exact getD_map_of_lt _ latent i hi [] []
  · have hlen : latent.length = st.exploration_matrices.length := by
      rcases not_or.mp h with ⟨h1, h2⟩
      exact not_not.mp h2
    have hi2 : i < st.exploration_matrices.length := hlen ▸ hi
    exact getD_zipWith_of_lt vecMatMul latent st.exploration_matrices i hi hi2 [] [] []

/-- Claim C8, witness: the theorem applied to a batch of size 1 with no
pre-sampled matrices (the fallback branch). -/
theorem claimC8_get_noise_witness :
    0 < ([[3, 4]] : Mat2).length
    ∧ ((StateDependentNoiseDistribution.get_noise
          ⟨1, false, false, none, none, [[1], [2]], []⟩ [[3, 4]]).getD 0 [] =
        (if ([[3, 4]] : Mat2).length = 1 ∨ ([[3, 4]] : Mat2).length ≠
            (StateDependentNoiseDistribution.mk 1 false false none none [[1], [2]]
              []).exploration_matrices.length then
          vecMatMul (([[3, 4]] : Mat2).getD 0 [])
            (StateDependentNoiseDistribution.mk 1 false false none none [[1], [2]]
              []).exploration_mat
        else
          vecMatMul (([[3, 4]] : Mat2).getD 0 [])
            ((StateDependentNoiseDistribution.mk 1 false false none none [[1], [2]]
              []).exploration_matrices.getD 0 []))) :=
  ⟨by decide,
    claimC8_get_noise ⟨1, false, false, none, none, [[1], [2]], []⟩ [[3, 4]] 0
      (by decide)⟩

/-- `np.isclose` is reflexive. -/
theorem iscloseQ_self (x : ℚ) : iscloseQ x x = true := by
  simp only [iscloseQ, sub_self, abs_zero, decide_eq_true_eq]
  positivity

/-- Elementwise closeness of a list with itself. -/
theorem zipWith_iscloseQ_self (a : List ℚ) : (List.zipWith iscloseQ a a).all id = true := by
  induction a with
  | nil => rfl
  | cons x xs ih => simp [iscloseQ_self, ih]

/-- `np.allclose` of an array with itself succeeds. -/
theorem npAllclose_self (a : List ℚ) : npAllclose a a = .ok true := by
  unfold npAllclose
  rw [if_pos rfl, zipWith_iscloseQ_self]

/-- Claim C5 (counterexample): two MultiCategorical instances whose
per-sub-space cardinality lists differ - `[2]` versus `[2, 2]` - do not
make `kl_divergence` raise: `np.allclose` broadcasts the length-1 array
across the other, the assert passes, and the zipped sum over the single
common sub-space is returned. -/
theorem claimC5_counterexample :
    ([2] : List ℚ) ≠ [2, 2]
    ∧ kl_divergence (fun _ _ => [0])
        (.multiCategorical [2] [.categorical ⟨[[0, 0]]⟩])
        (.multiCategorical [2, 2] [.categorical ⟨[[0, 0]]⟩, .categorical ⟨[[0, 0]]⟩]) =
      .ok [0] := by
  constructor
  · simp
  · norm_num [kl_divergence, AnyDist.cls, npAllclose, iscloseQ, sumAcrossSubspaces,
      List.all]

/-- Claim C5 (amended): `kl_divergence` raises on mismatched variant
classes; for MultiCategorical inputs it returns the sum over zipped
sub-spaces of the elementary KLs when the two cardinality arrays are
judged close by `np.allclose` (in particular whenever they are equal),
raises the assert when `np.allclose` returns false, and propagates the
broadcast error when the lengths are incompatible (so two different
cardinality lists slip through whenever one of them has length 1 or the
entries are close within tolerance); every other variant delegates to
the elementary closed-form KL of the two stored distributions. -/
theorem claimC5_amended (elemKL : Elem → Elem → List ℚ) (p q : AnyDist) :
    (p.cls ≠ q.cls → kl_divergence elemKL p q = .error .precondition)
    ∧ (∀ dims ps qs, p = .multiCategorical dims ps → q = .multiCategorical dims qs →
        kl_divergence elemKL p q = .ok (sumAcrossSubspaces (List.zipWith elemKL ps qs)))
    ∧ (∀ dp ps dq qs, p = .multiCategorical dp ps → q = .multiCategorical dq qs →
        npAllclose dq dp = .ok false →
        kl_divergence elemKL p q = .error .precondition)
    ∧ (∀ dp ps dq qs e, p = .multiCategorical dp ps → q = .multiCategorical dq qs →
        npAllclose dq dp = .error e → kl_divergence elemKL p q = .error e)
    ∧ (∀ a b, p.elemDist = some a → q.elemDist = some b → p.cls = q.cls →
        kl_divergence elemKL p q = .ok (elemKL a b)) := by
  refine ⟨?_, ?_, ?_, ?_, ?_⟩
  · intro h
    simp [kl_divergence, h]
  · intro dims ps qs hp hq
    subst hp
    subst hq
    simp [kl_divergence, AnyDist.cls, npAllclose_self]
  · intro dp ps dq qs hp hq hcl
    subst hp
    subst hq
    simp [kl_divergence, AnyDist.cls, hcl]
  · intro dp ps dq qs e hp hq hcl
    subst hp
    subst hq
    simp [kl_divergence, AnyDist.cls, hcl]
  · intro a b ha hb hcls
    cases p <;> cases q <;>
      simp_all [kl_divergence, AnyDist.cls, AnyDist.elemDist]

/-- Claim C5, witness: the delegation conjunct of the theorem applied to
two bound categorical instances. -/
theorem claimC5_amended_witness :
    kl_divergence (fun _ _ => [1]) (.categorical (.categorical ⟨[[0]]⟩))
      (.categorical (.categorical ⟨[[0]]⟩)) = .ok [1] :=
  (claimC5_amended (fun _ _ => [1]) (.categorical (.categorical ⟨[[0]]⟩))
    (.categorical (.categorical ⟨[[0]]⟩))).2.2.2.2
    (.categorical ⟨[[0]]⟩) (.categorical ⟨[[0]]⟩) rfl rfl rfl

/-- Claim C6 (counterexample): with the default `epsilon = 1e-6` and
`log_std = 1 > 0`, `get_std` under `expln` does not equal
`log1p(log_std) + 1`: the code adds `epsilon` inside the `log1p`, giving
`log1p(log_std + epsilon) + 1`, a strictly larger value. -/
theorem claimC6_counterexample :
    get_std_expln (1 / 1000000) 1 ≠ Real.log (1 + 1) + 1 := by
  have h1 : get_std_expln (1 / 1000000) 1 = Real.log (1 + (1 + 1 / 1000000)) + 1 := by
    rw [get_std_expln, if_neg (by norm_num), if_pos (by norm_num)]
    norm_num
  have h2 : Real.log (1 + 1) < Real.log (1 + (1 + 1 / 1000000)) :=
    Real.log_lt_log (by norm_num) (by norm_num)
  rw [h1]
  intro heq
  linarith

/-- Claim C6 (amended): under the `expln` transform with a positive
configured `epsilon` (default 1e-6), `get_std` maps an entry with
`log_std <= 0` to `exp(log_std)` and an entry with `log_std > 0` to
`log1p(log_std + epsilon) + 1` (not `log1p(log_std) + 1`), and the
result is strictly positive everywhere; at the `log_std = 0` boundary
the two branches differ by the jump `log1p(epsilon)`, so exact
continuity holds only in the `epsilon -> 0` limit. -/
theorem claimC6_amended (epsilon log_std : ℝ) (heps : 0 < epsilon) :
    get_std_expln epsilon log_std =
      (if log_std ≤ 0 then Real.exp log_std else Real.log (1 + (log_std + epsilon)) + 1)
    ∧ 0 < get_std_expln epsilon log_std := by
  have h1 : get_std_expln epsilon log_std =
      (if log_std ≤ 0 then Real.exp log_std
       else Real.log (1 + (log_std + epsilon)) + 1) := by
    by_cases h : log_std ≤ 0
    · rw [get_std_expln, if_pos h, if_pos h, if_neg (not_lt.mpr h)]
      ring
    · have h0 : 0 < log_std := lt_of_not_le h
      rw [get_std_expln, if_neg h, if_neg h, if_pos h0]
      ring_nf
  refine ⟨h1, ?_⟩
  rw [h1]
  by_cases h : log_std ≤ 0
  · rw [if_pos h]
    exact Real.exp_pos _
  · have h0 : 0 < log_std := lt_of_not_le h
    rw [if_neg h]
    have hlog : 0 ≤ Real.log (1 + (log_std + epsilon)) :=
      Real.log_nonneg (by linarith)
    linarith

/-- Claim C6, witness: the amended theorem applied at
`epsilon = 1/2`, `log_std = 1`. -/
theorem claimC6_amended_witness :
    (0 : ℝ) < 1 / 2
    ∧ (get_std_expln (1 / 2) 1 =
        (if (1 : ℝ) ≤ 0 then Real.exp 1 else Real.log (1 + (1 + 1 / 2)) + 1)
      ∧ 0 < get_std_expln (1 / 2) 1) :=
  ⟨by norm_num, claimC6_amended (1 / 2) 1 (by norm_num)⟩

/-- Claim C7: `TanhBijector.inverse(y)` is `atanh` applied to `y`
clamped into `[-1 + eps, 1 - eps]`, with `atanh` computed in the
numerically stable form `0.5 * (log1p(x) - log1p(-x))`; the clamped
argument indeed lies in the interval whenever `eps <= 1`.  The
characterization of `eps` as the floating-type increment is a property
of the float format and enters the model as a parameter. -/
theorem claimC7_tanh_inverse (eps y : ℝ) (heps : eps ≤ 1) :
    TanhBijector.inverse eps y = TanhBijector.atanh (min (max y (-1 + eps)) (1 - eps))
    ∧ TanhBijector.inverse eps y =
        (1 / 2) * (Real.log (1 + min (max y (-1 + eps)) (1 - eps)) -
          Real.log (1 - min (max y (-1 + eps)) (1 - eps)))
    ∧ -1 + eps ≤ min (max y (-1 + eps)) (1 - eps)
    ∧ min (max y (-1 + eps)) (1 - eps) ≤ 1 - eps := by
  refine ⟨rfl, ?_, ?_, min_le_right _ _⟩
  · rw [TanhBijector.inverse, TanhBijector.atanh]
    rw [show (1 : ℝ) + -min (max y (-1 + eps)) (1 - eps) =
      1 - min (max y (-1 + eps)) (1 - eps) by ring]
  · exact le_min (le_max_right _ _) (by linarith)

/-- Claim C7, witness: the theorem applied at `eps = 1/2`, `y = 3`. -/
theorem claimC7_tanh_inverse_witness :
    (1 / 2 : ℝ) ≤ 1
    ∧ (TanhBijector.inverse (1 / 2) 3 =
        TanhBijector.atanh (min (max 3 (-1 + 1 / 2)) (1 - 1 / 2))
      ∧ TanhBijector.inverse (1 / 2) 3 =
          (1 / 2) * (Real.log (1 + min (max 3 (-1 + 1 / 2)) (1 - 1 / 2)) -
            Real.log (1 - min (max 3 (-1 + 1 / 2)) (1 - 1 / 2)))
      ∧ ((-1 : ℝ) + 1 / 2 ≤ min (max 3 (-1 + 1 / 2)) (1 - 1 / 2))
      ∧ min (max 3 (-1 + 1 / 2)) (1 - 1 / 2) ≤ (1 : ℝ) - 1 / 2) :=
  ⟨by norm_num, claimC7_tanh_inverse (1 / 2) 3 (by norm_num)⟩
